import Mathlib

/-!
Verification development for the Apple Notes standalone exporter
(`standalone-export.js`).  The decoding pipeline is embedded shallowly:
protobuf message shapes become structures (absent message-typed fields are
`Option`, repeated fields are `List`, scalar fields carry their protobufjs
defaults), JavaScript strings become `List Char` (one entry per UTF-16-ish
character), JS array indexing that can yield `undefined` becomes `Option`,
and statements that can throw a `TypeError` run in `Except Unit`.
The external collaborators (sqlite row store, protobufjs wire decoding,
file system) are abstracted as parameters: decoding results are passed in
as `Option` values and attachment rendering as a function argument.
-/

namespace AppleNotes

/-! ## JavaScript primitive semantics -/

/-- JS array indexing `l[i]` with an arbitrary (possibly negative) integer
index: `undefined` (`none`) when out of range. -/
def jsIndex {α : Type} (l : List α) (i : Int) : Option α :=
  if 0 ≤ i then l[i.toNat]? else none

/-- JS array indexing with a natural-number index. -/
def jsIndexNat {α : Type} (l : List α) (n : Nat) : Option α := l[n]?

/-- JS `Array.prototype.indexOf`: index of the first occurrence, `-1` when
absent. -/
def jsIndexOfD {α : Type} [DecidableEq α] (l : List α) (a : α) : Int :=
  match l.findIdx? (fun x => x = a) with
  | some n => (n : Int)
  | none => -1

/-- JS `indexOf` where the needle may be `undefined` (an `undefined` needle
never equals a string element, so the result is `-1`). -/
def jsIndexOfOpt (l : List String) (k : Option String) : Int :=
  match k with
  | some s => jsIndexOfD l s
  | none => -1

/-- The whitespace class used by the model for JS `\s` / `trim`. -/
def jsWS (c : Char) : Bool :=
  c = ' ' || c = '\t' || c = '\n' || c = '\r' ||
  c = Char.ofNat 11 || c = Char.ofNat 12 || c = Char.ofNat 0xA0 || c = Char.ofNat 0xFEFF

/-- JS `String.prototype.trim`: drop leading and trailing whitespace. -/
def jsTrim (l : List Char) : List Char :=
  ((l.dropWhile jsWS).reverse.dropWhile jsWS).reverse

/-- JS `text.substring(i)`: negative start clamps to `0`, start beyond the
end yields the empty string. -/
def jsSubstringFrom (t : List Char) (i : Int) : List Char :=
  t.drop i.toNat

/-- JS `text.substring(a, b)`: both arguments are clamped into `[0, length]`
and swapped when `a > b`. -/
def jsSubstring (t : List Char) (a b : Int) : List Char :=
  let n : Int := t.length
  let a' := min (max a 0) n
  let b' := min (max b 0) n
  (t.take (max a' b').toNat).drop (min a' b').toNat

/-- First replacement in the exporter's cleanup: `replace(/\r\n/g, "\n")`,
scanning left to right without overlap. -/
def replaceCRLF : List Char → List Char
  | [] => []
  | '\r' :: '\n' :: rest => '\n' :: replaceCRLF rest
  | c :: rest => c :: replaceCRLF rest

/-- The exporter's line-ending cleanup: `replace(/\r\n/g,"\n")` followed by
`replace(/\r/g,"\n")`. -/
def normalizeNewlines (l : List Char) : List Char :=
  (replaceCRLF l).map (fun c => if c = '\r' then '\n' else c)

/-- Hex digit character for a value in `[0, 15]`. -/
def hexDigitChar (n : Nat) : Char :=
  if n < 10 then Char.ofNat (48 + n) else Char.ofNat (87 + n)

/-- JS `Buffer.from(bytes).toString("hex")`: two lowercase hex digits per
byte. -/
def bytesToHex (bs : List Nat) : String :=
  String.mk (bs.foldr (fun b acc => hexDigitChar (b / 16 % 16) :: hexDigitChar (b % 16) :: acc) [])

/-- Models a plain JS member access `x.y` on a possibly-`null` value:
throws a `TypeError` when the value is absent. -/
def jsAccess {α : Type} (o : Option α) : Except Unit α :=
  match o with
  | some a => Except.ok a
  | none => Except.error ()

/-! ## Protobuf data model (`ciofecaforensics` descriptor)

Only the fields the exporter reads are modelled.  protobufjs decodes
scalar fields to their defaults when absent (so they are plain values
here) and message-typed fields to `null` (so they are `Option`). -/

structure AttachmentInfo where
  attachmentIdentifier : String
  typeUti : String
  deriving DecidableEq

structure AttributeRun where
  length : Int
  attachmentInfo : Option AttachmentInfo
  deriving DecidableEq

structure Note where
  noteText : String
  attributeRun : List AttributeRun
  deriving DecidableEq

structure Document where
  version : Int
  note : Option Note
  deriving DecidableEq

structure ObjectID where
  unsignedIntegerValue : Nat
  objectIndex : Int
  deriving DecidableEq

structure MapEntry where
  key : Int
  value : Option ObjectID
  deriving DecidableEq

structure MergeableDataObjectMap where
  type : Int
  mapEntry : List MapEntry
  deriving DecidableEq

structure DictionaryElement where
  key : Option ObjectID
  value : Option ObjectID
  deriving DecidableEq

structure Dictionary where
  element : List DictionaryElement
  deriving DecidableEq

structure OrderedSetOrderingArrayAttachment where
  index : Int
  uuid : List Nat
  deriving DecidableEq

structure OrderedSetOrderingArray where
  contents : Option Note
  attachment : List OrderedSetOrderingArrayAttachment
  deriving DecidableEq

structure OrderedSetOrdering where
  array : Option OrderedSetOrderingArray
  contents : Option Dictionary
  deriving DecidableEq

structure OrderedSet where
  ordering : Option OrderedSetOrdering
  elements : Option Dictionary
  deriving DecidableEq

structure MergeableDataObjectEntry where
  note : Option Note
  customMap : Option MergeableDataObjectMap
  orderedSet : Option OrderedSet
  dictionary : Option Dictionary
  deriving DecidableEq

structure MergeableDataObjectData where
  mergeableDataObjectEntry : List MergeableDataObjectEntry
  mergeableDataObjectKeyItem : List String
  mergeableDataObjectTypeItem : List String
  mergeableDataObjectUuidItem : List (List Nat)
  deriving DecidableEq

structure MergableDataObject where
  version : Int
  mergeableDataObjectData : Option MergeableDataObjectData
  deriving DecidableEq

structure MergableDataProto where
  mergableDataObject : Option MergableDataObject
  deriving DecidableEq

/-! ## Object graph resolution (`getTargetUuid`, `findLocations`) -/

/-- `getTargetUuid(entry, objects, uuids)` (standalone-export.js:590-597).
`objects[entry.objectIndex]` may be `undefined`; the optional chain
`reference?.customMap?.mapEntry?.[0]?.value?.unsignedIntegerValue` yields
the boxed integer (protobufjs gives the uint64 scalar a default, so it is
present whenever `value` is), and `uuids[uuidIndex]` is `undefined`
(`none`) when the index is out of range. -/
def getTargetUuid (entry : ObjectID) (objects : List MergeableDataObjectEntry)
    (uuids : List String) : Option String :=
  match jsIndex objects entry.objectIndex with
  | some reference =>
    match reference.customMap with
    | some cm =>
      match cm.mapEntry.head? with
      | some me =>
        match me.value with
        | some v => jsIndexNat uuids v.unsignedIntegerValue
        | none => some ("")
      | none => some ("")
    | none => some ("")
  | none => some ("")

/-- The attachment list `object.orderedSet?.ordering?.array?.attachment`
(empty when the chain is broken; protobufjs defaults the repeated field to
`[]`). -/
def attachmentsOf (object : MergeableDataObjectEntry) : List OrderedSetOrderingArrayAttachment :=
  match object.orderedSet >>= (·.ordering) >>= (·.array) with
  | some arr => arr.attachment
  | none => []

/-- The `ordering` list built by `findLocations`: hex of each attachment
uuid. -/
def orderingOf (object : MergeableDataObjectEntry) : List String :=
  (attachmentsOf object).map (fun el => bytesToHex el.uuid)

/-- The elements of `object.orderedSet?.ordering?.contents`. -/
def contentsElemsOf (object : MergeableDataObjectEntry) : List DictionaryElement :=
  match object.orderedSet >>= (·.ordering) >>= (·.contents) with
  | some d => d.element
  | none => []

/-- `getTargetUuid` as the dictionary loops invoke it: the argument is a
`DictionaryElement`'s `key`/`value` — a message-typed field protobufjs
decodes to `null` when absent from the wire — and the plain
`entry.objectIndex` access inside `getTargetUuid` throws a `TypeError`
on `null`. -/
def getTargetUuidJS (entry : Option ObjectID) (objects : List MergeableDataObjectEntry)
    (uuids : List String) : Except Unit (Option String) := do
  let e ← jsAccess entry
  pure (getTargetUuid e objects uuids)

/-- One step of the `indices[value] = ordering.indexOf(key)` loop in
`findLocations` (standalone-export.js:579-584); the JS object is
modelled as a function from (possibly `undefined`) keys, and a `null`
`element.key` or `element.value` throws inside `getTargetUuid`. -/
def indicesStepM (objects : List MergeableDataObjectEntry) (uuids : List String)
    (ordering : List String) (m : Option String → Option Int)
    (element : DictionaryElement) : Except Unit (Option String → Option Int) := do
  let key ← getTargetUuidJS element.key objects uuids
  let value ← getTargetUuidJS element.value objects uuids
  pure (fun q => if q = value then some (jsIndexOfOpt ordering key) else m q)

/-- `findLocations(object, objects, uuids)` (standalone-export.js:568-588):
returns the `uuid -> position` map and `ordering.length`, or propagates
the `TypeError` thrown when a contents element carries a `null` key or
value reference. -/
def findLocations (object : MergeableDataObjectEntry)
    (objects : List MergeableDataObjectEntry) (uuids : List String) :
    Except Unit ((Option String → Option Int) × Nat) := do
  let ordering := orderingOf object
  let indices ← (contentsElemsOf object).foldlM (indicesStepM objects uuids ordering)
    (fun _ => none)
  pure (indices, ordering.length)

/-- The value one `indicesStepM` step computes when both references are
present (the `getD` defaults are never reached under that hypothesis);
used to state what `findLocations` returns on such inputs. -/
def indicesStepP (objects : List MergeableDataObjectEntry) (uuids : List String)
    (ordering : List String) (m : Option String → Option Int)
    (element : DictionaryElement) : Option String → Option Int :=
  let key := getTargetUuid (element.key.getD ⟨0, 0⟩) objects uuids
  let value := getTargetUuid (element.value.getD ⟨0, 0⟩) objects uuids
  fun q => if q = value then some (jsIndexOfOpt ordering key) else m q

/-- Reading an association out of a `findLocations` result (`none` when
it threw). -/
def findLocationsLookup (r : Except Unit ((Option String → Option Int) × Nat))
    (k : Option String) : Option Int :=
  match r with
  | Except.ok p => p.1 k
  | Except.error _ => none

/-! ## Table reconstruction (`convertTableData`) -/

/-- The transient table grid: `Array(rowCount)` rows of sparse
`Array(columnCount)` cells; an unassigned cell is a hole (`none`). -/
abbrev Grid := List (List (Option (List Char)))

/-- JS `x < count` where `x` may be `undefined` (`undefined < count` is
`false`). -/
def optLtNat (o : Option Int) (n : Nat) : Bool :=
  match o with
  | none => false
  | some i => i < (n : Int)

/-- The cell text extracted from the target entry:
`rowContent.note && rowContent.note.noteText` gives the trimmed note text,
and `cellText || ""` turns everything else into the empty string. -/
def cellTextOf (rowContent : MergeableDataObjectEntry) : List Char :=
  match rowContent.note with
  | some n => if n.noteText ≠ "" then jsTrim n.noteText.data else []
  | none => []

/-- `table[i][j] = v` on the grid.  `table[i]` is `undefined` for an index
outside `[0, rowCount)`, so the assignment throws a `TypeError` there; a
negative `j` stores an invisible non-index property (the grid is
unchanged as far as rendering is concerned). -/
def setCell (grid : Grid) (i j : Int) (v : List Char) : Except Unit Grid :=
  if i < 0 ∨ (grid.length : Int) ≤ i then Except.error ()
  else if j < 0 then Except.ok grid
  else Except.ok (grid.set i.toNat (((grid[i.toNat]?).getD []).set j.toNat (some v)))

/-- The guarded cell placement
`if (rowLocation < rowCount && columnLocation < columnCount && rowContent)`
followed by `table[rowLocation][columnLocation] = cellText || ""`
(standalone-export.js:539-545). -/
def placeCell (rowCount columnCount : Nat) (grid : Grid)
    (rowLocation columnLocation : Option Int)
    (rowContent : Option MergeableDataObjectEntry) : Except Unit Grid :=
  if optLtNat rowLocation rowCount && optLtNat columnLocation columnCount && rowContent.isSome then
    match rowLocation, columnLocation, rowContent with
    | some i, some j, some rc => setCell grid i j (cellTextOf rc)
    | _, _, _ => Except.ok grid
  else Except.ok grid

/-- The row/column/cell bookkeeping accumulated over the root map
entries. -/
structure TableParts where
  rowLocations : Option String → Option Int
  rowCount : Nat
  columnLocations : Option String → Option Int
  columnCount : Nat
  cellData : Option MergeableDataObjectEntry

/-- Initial state: `rowLocations = {}`, `rowCount = 0`, ... ,
`cellData = null`. -/
def emptyParts : TableParts :=
  { rowLocations := fun _ => none, rowCount := 0,
    columnLocations := fun _ => none, columnCount := 0, cellData := none }

/-- One iteration of the `for (const entry of root.customMap.mapEntry)`
loop (standalone-export.js:508-523).  `entry.value.objectIndex` throws
when `value` is `null`; `findLocations` throws (at `object.orderedSet`)
when `objects[...]` was `undefined`. -/
def partsStep (keys : List String) (objects : List MergeableDataObjectEntry)
    (uuids : List String) (st : TableParts) (entry : MapEntry) : Except Unit TableParts := do
  let v ← jsAccess entry.value
  let object := jsIndex objects v.objectIndex
  match jsIndex keys entry.key with
  | some ("crRows") => do
    let o ← jsAccess object
    let r ← findLocations o objects uuids
    pure { st with rowLocations := r.1, rowCount := r.2 }
  | some ("crColumns") => do
    let o ← jsAccess object
    let r ← findLocations o objects uuids
    pure { st with columnLocations := r.1, columnCount := r.2 }
  | some ("cellColumns") => pure { st with cellData := object }
  | _ => pure st

/-- One iteration of the outer `for (const column of
cellData.dictionary.element)` loop (standalone-export.js:530-549):
a missing `rowData` or `rowData.dictionary` skips the column, otherwise
every row element is placed.  `null` key references throw inside
`getTargetUuid`, and `null` value references throw at the plain
`.objectIndex` access. -/
def placeColumn (objects : List MergeableDataObjectEntry) (uuids : List String)
    (p : TableParts) (grid : Grid) (column : DictionaryElement) : Except Unit Grid := do
  let ck ← getTargetUuidJS column.key objects uuids
  let columnLocation := p.columnLocations ck
  let cv ← jsAccess column.value
  match jsIndex objects cv.objectIndex with
  | some rowData =>
    match rowData.dictionary with
    | some d =>
      d.element.foldlM (fun g row => do
        let rk ← getTargetUuidJS row.key objects uuids
        let rowLocation := p.rowLocations rk
        let rv ← jsAccess row.value
        let rowContent := jsIndex objects rv.objectIndex
        placeCell p.rowCount p.columnCount g rowLocation columnLocation rowContent) grid
    | none => pure grid
  | none => pure grid

/-- Escape literal pipes: `replace(/\|/g, "\\|")`. -/
def escapePipes (l : List Char) : List Char :=
  l.foldr (fun c acc => if c = '|' then '\\' :: '|' :: acc else c :: acc) []

/-- One markdown table row: `| ${row.join(" | ")} |\n` with holes rendered
as the empty string by `join` and assigned cells escaped by
`(cell || "").replace(/\|/g, "\\|")`. -/
def renderRow (row : List (Option (List Char))) : List Char :=
  ("| ").data ++ List.intercalate ((" | ").data) (row.map (fun c => escapePipes (c.getD []))) ++ (" |\n").data

/-- The separator `|${" -- |".repeat(n)}\n`. -/
def sepRow (n : Nat) : List Char :=
  ("|").data ++ (List.replicate n ((" -- |").data)).flatten ++ ("\n").data

/-- The markdown rendering loop (standalone-export.js:552-560): starts
from a bare newline, appends each row, inserts the separator right after
the first row (sized by `table[0].length`), and appends one more
newline. -/
def renderTable (table : Grid) : List Char :=
  let body :=
    match table with
    | [] => []
    | r0 :: rest => renderRow r0 ++ sepRow r0.length ++ (rest.map renderRow).flatten
  ('\n' :: body) ++ ['\n']

/-- Whether an entry is the table root:
`e.customMap && types[e.customMap.type] === "com.apple.notes.ICTable"`. -/
def isTableRoot (types : List String) (e : MergeableDataObjectEntry) : Bool :=
  match e.customMap with
  | some cm => jsIndex types cm.type = some ("com.apple.notes.ICTable")
  | none => false

/-- The body of `convertTableData` (standalone-export.js:481-566) given an
already-decoded `MergableDataProto`; `Except.error` models a thrown
`TypeError`, `Except.ok none` models an explicit `return null`.  The
reconstructed grid is returned alongside the markdown. -/
def convertTableDataCore (proto : MergableDataProto) : Except Unit (Option (Grid × List Char)) := do
  match proto.mergableDataObject >>= (·.mergeableDataObjectData) with
  | none => pure none
  | some data =>
    let keys := data.mergeableDataObjectKeyItem
    let types := data.mergeableDataObjectTypeItem
    let uuids := data.mergeableDataObjectUuidItem.map bytesToHex
    let objects := data.mergeableDataObjectEntry
    match objects.find? (isTableRoot types) with
    | none => pure none
    | some root =>
      match root.customMap with
      | none => pure none
      | some cm =>
        let parts ← cm.mapEntry.foldlM (partsStep keys objects uuids) emptyParts
        match parts.cellData with
        | none => pure none
        | some cd => do
          let d ← jsAccess cd.dictionary
          let grid0 : Grid := List.replicate parts.rowCount (List.replicate parts.columnCount none)
          let grid ← d.element.foldlM (placeColumn objects uuids parts) grid0
          pure (some (grid, renderTable grid))

/-- `convertTableData` as observed by its caller: the protobuf decode
result is passed in (`none` when `MergableDataProto.decode` threw), and
any exception inside the body is caught, yielding `null`. -/
def convertTableData (decoded : Option MergableDataProto) : Option (List Char) :=
  match decoded with
  | none => none
  | some p =>
    match convertTableDataCore p with
    | Except.ok (some r) => some r.2
    | Except.ok none => none
    | Except.error _ => none

/-! ## Text/attachment interleaver (`formatNoteTextWithAttachments`) -/

/-- The H1 header every produced document starts with:
`\x60# ${title}\n\n\x60`. -/
def headerOf (title : String) : List Char :=
  ("# " ++ title ++ "\n\n").data

/-- First index of a newline, JS `indexOf` style. -/
def jsIndexOfChar (text : List Char) (c : Char) : Int :=
  jsIndexOfD text c

/-- The post-suppression offset (standalone-export.js:300-307):
`firstNewlineIndex + 1` when first-line omission applies, else `0`. -/
def noteTextOffset (text : List Char) (omitFirst : Bool) : Int :=
  if omitFirst && text.contains '\n' then jsIndexOfChar text '\n' + 1 else 0

/-- The contribution of a non-skipped run: the rendered attachment marker
when `attr.attachmentInfo` is set, otherwise the covered slice
`text.substring(attrStart, attrEnd)`. -/
def runContribution (text : List Char) (render : AttachmentInfo → List Char)
    (cur : Int) (attr : AttributeRun) : List Char :=
  match attr.attachmentInfo with
  | some info => render info
  | none => jsSubstring text cur (cur + attr.length)

/-- One iteration of the attribute-run loop
(standalone-export.js:313-336) over the state
`(processedText, currentOffset)`. -/
def processRun (text : List Char) (textOffset : Int) (render : AttachmentInfo → List Char)
    (st : List Char × Int) (attr : AttributeRun) : List Char × Int :=
  let attrStart := st.2
  let attrEnd := st.2 + attr.length
  if attrStart < textOffset then (st.1, attrEnd)
  else
    let textSegment := jsSubstring text attrStart attrEnd
    match attr.attachmentInfo with
    | some info => (st.1 ++ render info, attrEnd)
    | none => (st.1 ++ textSegment, attrEnd)

/-- The whole run walk: the accumulator starts at `("", textOffset)` —
the cursor is seeded at the post-suppression offset, not at zero. -/
def interleaveRuns (text : List Char) (textOffset : Int)
    (render : AttachmentInfo → List Char) (runs : List AttributeRun) : List Char × Int :=
  runs.foldl (processRun text textOffset render) ([], textOffset)

/-- The interleaved text plus the trailing
`if (currentOffset < text.length) processedText += text.substring(currentOffset)`
step (standalone-export.js:339-341). -/
def interleavedWithTail (note : Note) (omitFirst : Bool)
    (render : AttachmentInfo → List Char) : List Char :=
  let text := note.noteText.data
  let off := noteTextOffset text omitFirst
  let r := interleaveRuns text off render note.attributeRun
  if r.2 < (text.length : Int) then r.1 ++ jsSubstringFrom text r.2 else r.1

/-- The body before line-ending cleanup (standalone-export.js:343-346):
fall back to the raw suffix when the run list is empty or the interleaved
result trims to nothing. -/
def preBody (note : Note) (omitFirst : Bool) (render : AttachmentInfo → List Char) : List Char :=
  let text := note.noteText.data
  let off := noteTextOffset text omitFirst
  let p := interleavedWithTail note omitFirst render
  if note.attributeRun.length = 0 || (jsTrim p).isEmpty then jsSubstringFrom text off else p

/-- The final body (standalone-export.js:348-352): normalize line endings
and trim. -/
def noteBody (note : Note) (omitFirst : Bool) (render : AttachmentInfo → List Char) : List Char :=
  jsTrim (normalizeNewlines (preBody note omitFirst render))

/-- `formatNoteTextWithAttachments` (standalone-export.js:289-356):
header, blank line, processed body.  Attachment rendering (a database
lookup) is abstracted as `render`. -/
def formatNoteTextWithAttachments (note : Note) (title : String) (omitFirst : Bool)
    (render : AttachmentInfo → List Char) : List Char :=
  headerOf title ++ noteBody note omitFirst render

/-! ## Raw-text fallback (`extractTextFallback`) -/

/-- Control characters removed by
`replace(/[\x00-\x08\x0B-\x0C\x0E-\x1F\x7F-\x9F]/g, "")`. -/
def controlCharRemoved (c : Char) : Bool :=
  (c.toNat ≤ 0x08) || (0x0B ≤ c.toNat && c.toNat ≤ 0x0C) ||
  (0x0E ≤ c.toNat && c.toNat ≤ 0x1F) || (0x7F ≤ c.toNat && c.toNat ≤ 0x9F)

/-- Characters of the readable-chunk regex class
`[a-zA-Z0-9\s\.,!?;:'"()\-+=<>@#$%^&*{}[\]|\\\/]`. -/
def readableChar (c : Char) : Bool :=
  ('a' ≤ c && c ≤ 'z') || ('A' ≤ c && c ≤ 'Z') || ('0' ≤ c && c ≤ '9') || jsWS c ||
  c = '.' || c = ',' || c = '!' || c = '?' || c = ';' || c = ':' || c = '\'' || c = '"' ||
  c = '(' || c = ')' || c = '-' || c = '+' || c = '=' || c = '<' || c = '>' || c = '@' ||
  c = '#' || c = '$' || c = '%' || c = '^' || c = '&' || c = '*' ||
  c = Char.ofNat 0x7B || c = Char.ofNat 0x7D || c = '[' || c = ']' ||
  c = '|' || c = '\\' || c = '/'

/-- Maximal runs of readable characters (the global greedy matches of the
chunk regex, before the length-10 filter). -/
def readableRuns : List Char → List (List Char)
  | [] => []
  | c :: rest =>
    let rs := readableRuns rest
    if readableChar c then
      match rest with
      | r :: _ =>
        if readableChar r then
          match rs with
          | x :: xs => (c :: x) :: xs
          | [] => [[c]]
        else [c] :: rs
      | [] => [[c]]
    else rs

/-- `extractTextFallback` (standalone-export.js:378-408).  The buffer is
modelled as its utf-8 decoded character list. -/
def extractTextFallback (buffer : List Char) (title : String) (omitFirst : Bool) : List Char :=
  let text := jsTrim (buffer.filter (fun c => !controlCharRemoved c))
  let readableChunks := (readableRuns text).filter (fun r => 10 ≤ r.length)
  if readableChunks.isEmpty then
    headerOf title ++ ("*Note content could not be extracted - may contain rich content, attachments, or encrypted data*").data
  else
    let extractedText := jsTrim (List.intercalate (['\n']) readableChunks)
    headerOf title ++
      (if omitFirst && extractedText.contains '\n' then
        let lines := extractedText.splitOn '\n'
        if 1 < lines.length then List.intercalate (['\n']) (lines.drop 1) else extractedText
      else extractedText)

/-! ## Document decoder (`extractNoteContent`) -/

/-- The schema-A check `document.note && document.note.noteText`. -/
def docNoteFound (doc : Document) : Option Note :=
  match doc.note with
  | some n => if n.noteText ≠ "" then some n else none
  | none => none

/-- Per-entry first check: `entry.note && entry.note.noteText`. -/
def noteSel (e : MergeableDataObjectEntry) : Option Note :=
  match e.note with
  | some n => if n.noteText ≠ "" then some n else none
  | none => none

/-- Per-entry second check:
`entry.orderedSet?.ordering?.array?.contents` carrying note text. -/
def osSel (e : MergeableDataObjectEntry) : Option Note :=
  match e.orderedSet >>= (·.ordering) >>= (·.array) >>= (·.contents) with
  | some c => if c.noteText ≠ "" then some c else none
  | none => none

/-- What the schema-B entry loop selects from one entry: the `note` check
runs first, the `orderedSet` check second. -/
def entrySelect (e : MergeableDataObjectEntry) : Option Note :=
  match noteSel e with
  | some n => some n
  | none => osSel e

/-- The schema-B entry loop (standalone-export.js:271-278): walk the flat
entry list once, returning on the first entry whose `note` check or —
failing that, in the same iteration — whose `orderedSet` check carries
note text. -/
def scanEntries : List MergeableDataObjectEntry → Option Note
  | [] => none
  | e :: rest =>
    match entrySelect e with
    | some n => some n
    | none => scanEntries rest

/-- The note the schema-B branch yields from a `MergableDataProto` decode
result. -/
def mergNoteFound (m : Option MergableDataProto) : Option Note :=
  match m with
  | some p =>
    match p.mergableDataObject >>= (·.mergeableDataObjectData) with
    | some data => scanEntries data.mergeableDataObjectEntry
    | none => none
  | none => none

/-- `extractNoteContent` (standalone-export.js:252-287), parametrized over
the two protobufjs decode outcomes (`none` = the decode call threw).
Schema B is reached only through the `catch` around the schema-A decode;
a schema-A decode that succeeds without note text falls straight through
to `extractTextFallback`. -/
def extractNoteContent (docRes : Option Document) (mergRes : Option MergableDataProto)
    (buffer : List Char) (title : String) (omitFirst : Bool)
    (render : AttachmentInfo → List Char) : List Char :=
  match docRes with
  | some doc =>
    match docNoteFound doc with
    | some n => formatNoteTextWithAttachments n title omitFirst render
    | none => extractTextFallback buffer title omitFirst
  | none =>
    match mergNoteFound mergRes with
    | some n => formatNoteTextWithAttachments n title omitFirst render
    | none => extractTextFallback buffer title omitFirst

/-- The placeholder `processNote` writes when `extractNoteContent` (or the
gunzip) throws (standalone-export.js:232). -/
def couldNotExtractContent (title : String) : List Char :=
  ("# " ++ title ++ "\n\n*Content could not be extracted*").data

/-! ## Filename sanitization (`sanitizeFileName`) -/

/-- The characters removed by `replace(/[<>:"\/\\|?*]/g, "")`. -/
def forbiddenChar (c : Char) : Bool :=
  c = '<' || c = '>' || c = ':' || c = '"' || c = '/' || c = '\\' || c = '|' || c = '?' || c = '*'

/-- `replace(/\s+/g, " ")`: each maximal whitespace run collapses to one
space.  The flag records whether we are inside a run already consumed. -/
def collapseWSAux : Bool → List Char → List Char
  | _, [] => []
  | inWS, c :: rest =>
    if jsWS c then
      if inWS then collapseWSAux true rest
      else ' ' :: collapseWSAux true rest
    else c :: collapseWSAux false rest

/-- Whitespace collapsing from the initial state. -/
def collapseWS (l : List Char) : List Char := collapseWSAux false l

/-- `sanitizeFileName` (standalone-export.js:760-762). -/
def sanitizeFileName (name : String) : String :=
  String.mk (jsTrim (collapseWS (name.data.filter (fun c => !forbiddenChar c))))

/-! ## Concrete object graphs used by the claim witnesses and
counterexamples -/

/-- An entry with every variant absent. -/
def emptyEntry : MergeableDataObjectEntry :=
  { note := none, customMap := none, orderedSet := none, dictionary := none }

/-- A UUID box: a `customMap` whose first map-entry's value carries the
literal index `uuidIdx` into the uuid table. -/
def boxEntry (uuidIdx : Nat) : MergeableDataObjectEntry :=
  { emptyEntry with customMap := some ⟨0, [⟨0, some ⟨uuidIdx, 0⟩⟩]⟩ }

/-- An entry holding only note text. -/
def noteEntry (s : String) : MergeableDataObjectEntry :=
  { emptyEntry with note := some ⟨s, []⟩ }

/-- An entry holding only a dictionary. -/
def dictEntry (els : List DictionaryElement) : MergeableDataObjectEntry :=
  { emptyEntry with dictionary := some ⟨els⟩ }

/-- A dictionary element whose (present) key/value reference the entries
at indices `k` and `v`. -/
def refEl (k v : Int) : DictionaryElement := ⟨some ⟨0, k⟩, some ⟨0, v⟩⟩

/-- An ordered-set entry with the given attachment uuids (canonical order)
and contents dictionary. -/
def osEntry (att : List (List Nat)) (els : List DictionaryElement) : MergeableDataObjectEntry :=
  { emptyEntry with
    orderedSet := some ⟨some ⟨some ⟨none, att.map (fun u => ⟨0, u⟩)⟩, some ⟨els⟩⟩, none⟩ }

/-- The table-root `customMap` entry: keys 0/1/2 are
`crRows`/`crColumns`/`cellColumns`, referencing entries 1/2/3. -/
def rootEntry : MergeableDataObjectEntry :=
  { emptyEntry with
    customMap := some ⟨0, [⟨0, some ⟨0, 1⟩⟩, ⟨1, some ⟨0, 2⟩⟩, ⟨2, some ⟨0, 3⟩⟩]⟩ }

/-- Row ordering `[r0, r1]` (uuids `aa`, `ab`). -/
def exRowsOS : MergeableDataObjectEntry :=
  osEntry [[0xaa], [0xab]] [refEl 4 4, refEl 5 5]

/-- The object list of the well-formed 2x2 table graph of claim C3:
rows `[aa, ab]`, columns `[ba, bb]`, cells `(r0,c0) = "A"`,
`(r1,c1) = "B"`. -/
def exTableObjects : List MergeableDataObjectEntry :=
  [rootEntry,
   exRowsOS,
   osEntry [[0xba], [0xbb]] [refEl 6 6, refEl 7 7],
   dictEntry [refEl 6 8, refEl 7 9],
   boxEntry 0, boxEntry 1, boxEntry 2, boxEntry 3,
   dictEntry [refEl 4 10],
   dictEntry [refEl 5 11],
   noteEntry ("A"), noteEntry ("B")]

/-- The uuid table shared by the table examples. -/
def exTableUuids : List (List Nat) := [[0xaa], [0xab], [0xba], [0xbb]]

/-- The hex uuid list as `convertTableData` computes it. -/
def exUuidsHex : List String := exTableUuids.map bytesToHex

/-- The well-formed 2x2 table blob of claim C3, as decoded. -/
def exTableProto : MergableDataProto :=
  ⟨some ⟨1, some
    { mergeableDataObjectEntry := exTableObjects,
      mergeableDataObjectKeyItem := ["crRows", "crColumns", "cellColumns"],
      mergeableDataObjectTypeItem := ["com.apple.notes.ICTable"],
      mergeableDataObjectUuidItem := exTableUuids }⟩⟩

/-- A table graph whose single cell's row uuid (`ab`) appears in the
contents dictionary but not in the row ordering array, so its recorded
row index is `-1`. -/
def exBadTableObjects : List MergeableDataObjectEntry :=
  [rootEntry,
   osEntry [[0xaa]] [refEl 5 5],
   osEntry [[0xba]] [refEl 6 6],
   dictEntry [refEl 6 7],
   boxEntry 0, boxEntry 1, boxEntry 2,
   dictEntry [refEl 5 8],
   noteEntry ("X")]

/-- The decoded table blob of claim C4's counterexample. -/
def exBadTableProto : MergableDataProto :=
  ⟨some ⟨1, some
    { mergeableDataObjectEntry := exBadTableObjects,
      mergeableDataObjectKeyItem := ["crRows", "crColumns", "cellColumns"],
      mergeableDataObjectTypeItem := ["com.apple.notes.ICTable"],
      mergeableDataObjectUuidItem := [[0xaa], [0xab], [0xba]] }⟩⟩

/-- Schema-B entry list for claim C5: the first entry carries note text
only inside `orderedSet.ordering.array.contents`, the second carries a
populated `note` field. -/
def exScanEntries : List MergeableDataObjectEntry :=
  [{ emptyEntry with
     orderedSet := some ⟨some ⟨some ⟨some ⟨"X", []⟩, []⟩, none⟩, none⟩ },
   noteEntry ("Y")]

/-- A schema-B decode result whose scan yields the note `"Hello world"`. -/
def exMergProto : MergableDataProto :=
  ⟨some ⟨1, some
    { mergeableDataObjectEntry := [noteEntry ("Hello world")],
      mergeableDataObjectKeyItem := [],
      mergeableDataObjectTypeItem := [],
      mergeableDataObjectUuidItem := [] }⟩⟩

/-! ## Derived observations used in the claim statements -/

/-- Sum of the raw (protobuf `int32`) lengths of a run list. -/
def sumLengths (runs : List AttributeRun) : Int :=
  (runs.map (fun r => r.length)).sum

/-- A lowercase hexadecimal digit. -/
def isLowerHexDigit (c : Char) : Bool :=
  ('0' ≤ c && c ≤ '9') || ('a' ≤ c && c ≤ 'f')

/-- A 32-character lowercase hex string (the textual form of a 16-byte
uuid). -/
def isHex32 (s : String) : Bool :=
  s.data.length = 32 && s.data.all isLowerHexDigit

/-- The grid `convertTableData` builds for a decoded table blob, when the
body neither throws nor returns `null` before allocation. -/
def gridOf (p : MergableDataProto) : Option Grid :=
  match convertTableDataCore p with
  | Except.ok (some r) => some r.1
  | _ => none

/-- The row ordered-set of the malformed table graph (ordering `[aa]`,
contents mapping the stray uuid `ab` to itself). -/
def exBadRowsOS : MergeableDataObjectEntry :=
  osEntry [[0xaa]] [refEl 5 5]

/-- The hex uuid list of the malformed table graph. -/
def exBadUuidsHex : List String :=
  ([[0xaa], [0xab], [0xba]] : List (List Nat)).map bytesToHex

/-- An ordered set whose single contents element carries a `null` key
reference (an empty or key-less `DictionaryElement` message is valid on
the wire): `findLocations` throws on it. -/
def exNullKeyOS : MergeableDataObjectEntry :=
  osEntry [[0xaa]] [⟨none, some ⟨0, 4⟩⟩]

/-! ## Supporting lemmas -/

theorem head?_dropWhile_false (p : Char → Bool) :
    ∀ (l : List Char) (c : Char), (l.dropWhile p).head? = some c → p c = false := by
  intro l
  induction l with
  | nil => intro c h; simp [List.dropWhile] at h
  | cons a rest ih =>
    intro c h
    by_cases hp : p a
    · rw [List.dropWhile_cons, if_pos hp] at h
      exact ih c h
    · rw [List.dropWhile_cons, if_neg hp] at h
      simp at h
      rw [h] at hp
      exact Bool.eq_false_iff.mpr hp

theorem getLast?_dropWhile_of_ne_nil (p : Char → Bool) :
    ∀ (l : List Char), l.dropWhile p ≠ [] → (l.dropWhile p).getLast? = l.getLast? := by
  intro l
  induction l with
  | nil => intro h; simp [List.dropWhile] at h
  | cons a rest ih =>
    intro h
    by_cases hp : p a
    · rw [List.dropWhile_cons, if_pos hp] at h ⊢
      have hr : rest ≠ [] := by
        intro he; rw [he] at h; simp [List.dropWhile] at h
      rw [ih h]
      cases rest with
      | nil => exact absurd rfl hr
      | cons b bs => simp [List.getLast?_cons_cons]
    · rw [List.dropWhile_cons, if_neg hp]

theorem jsTrim_head_not_ws (l : List Char) :
    ∀ c, (jsTrim l).head? = some c → jsWS c = false := by
  intro c h
  unfold jsTrim at h
  rw [List.head?_reverse] at h
  have hne : (l.dropWhile jsWS).reverse.dropWhile jsWS ≠ [] := by
    intro he; rw [he] at h; simp at h
  rw [getLast?_dropWhile_of_ne_nil jsWS _ hne, List.getLast?_reverse] at h
  exact head?_dropWhile_false jsWS _ c h

theorem jsTrim_getLast_not_ws (l : List Char) :
    ∀ c, (jsTrim l).getLast? = some c → jsWS c = false := by
  intro c h
  unfold jsTrim at h
  rw [List.getLast?_reverse] at h
  exact head?_dropWhile_false jsWS _ c h

theorem mem_jsTrim (l : List Char) (c : Char) : c ∈ jsTrim l → c ∈ l := by
  intro h
  unfold jsTrim at h
  rw [List.mem_reverse] at h
  have h2 := (List.dropWhile_sublist (l := (l.dropWhile jsWS).reverse) jsWS).mem h
  rw [List.mem_reverse] at h2
  exact (List.dropWhile_sublist (l := l) jsWS).mem h2

theorem chain'_dropWhile {R : Char → Char → Prop} (p : Char → Bool) :
    ∀ (l : List Char), List.Chain' R l → List.Chain' R (l.dropWhile p) := by
  intro l
  induction l with
  | nil => intro h; simp [List.dropWhile]
  | cons a rest ih =>
    intro h
    by_cases hp : p a
    · rw [List.dropWhile_cons, if_pos hp]
      exact ih h.tail
    · rw [List.dropWhile_cons, if_neg hp]
      exact h

theorem noCR_normalizeNewlines (l : List Char) : '\r' ∉ normalizeNewlines l := by
  intro h
  unfold normalizeNewlines at h
  rw [List.mem_map] at h
  obtain ⟨a, _, ha⟩ := h
  by_cases hc : a = '\r'
  · rw [if_pos hc] at ha
    exact absurd ha (by decide)
  · rw [if_neg hc] at ha
    exact hc ha

theorem collapseWSAux_chain :
    ∀ (l : List Char),
      (∀ b : Bool, List.Chain' (fun a c => jsWS a = false ∨ jsWS c = false) (collapseWSAux b l))
      ∧ (∀ c, (collapseWSAux true l).head? = some c → jsWS c = false) := by
  intro l
  induction l with
  | nil =>
    constructor
    · intro b; simp [collapseWSAux]
    · intro c h; simp [collapseWSAux] at h
  | cons a rest ih =>
    by_cases hw : jsWS a
    · constructor
      · intro b
        cases b with
        | true =>
          show List.Chain' _ (collapseWSAux true (a :: rest))
          simp only [collapseWSAux, hw, if_pos]
          exact (ih.1 true)
        | false =>
          show List.Chain' _ (collapseWSAux false (a :: rest))
          simp only [collapseWSAux, hw, if_pos, Bool.false_eq_true, ite_false]
          rw [List.chain'_cons']
          refine ⟨?_, ih.1 true⟩
          intro y hy
          exact Or.inr (ih.2 y hy)
      · intro c h
        simp only [collapseWSAux, hw, if_pos] at h
        exact ih.2 c h
    · have hw' : jsWS a = false := Bool.eq_false_iff.mpr hw
      constructor
      · intro b
        show List.Chain' _ (collapseWSAux b (a :: rest))
        simp only [collapseWSAux, hw', Bool.false_eq_true, if_neg, ite_false]
        rw [List.chain'_cons']
        exact ⟨fun y _ => Or.inl hw', ih.1 false⟩
      · intro c h
        simp only [collapseWSAux, hw', Bool.false_eq_true, ite_false] at h
        simp at h
        rw [← h]
        exact hw'

theorem mem_collapseWSAux :
    ∀ (l : List Char) (b : Bool) (c : Char), c ∈ collapseWSAux b l → c = ' ' ∨ c ∈ l := by
  intro l
  induction l with
  | nil => intro b c h; simp [collapseWSAux] at h
  | cons a rest ih =>
    intro b c h
    by_cases hw : jsWS a
    · simp only [collapseWSAux, hw, if_pos] at h
      cases b with
      | true =>
        rcases ih true c h with h1 | h1
        · exact Or.inl h1
        · exact Or.inr (List.mem_cons_of_mem a h1)
      | false =>
        rcases List.mem_cons.mp h with h1 | h1
        · exact Or.inl h1
        · rcases ih true c h1 with h2 | h2
          · exact Or.inl h2
          · exact Or.inr (List.mem_cons_of_mem a h2)
    · have hw' : jsWS a = false := Bool.eq_false_iff.mpr hw
      simp only [collapseWSAux, hw', Bool.false_eq_true, ite_false] at h
      rcases List.mem_cons.mp h with h1 | h1
      · exact Or.inr (h1 ▸ List.mem_cons_self a rest)
      · rcases ih false c h1 with h2 | h2
        · exact Or.inl h2
        · exact Or.inr (List.mem_cons_of_mem a h2)

theorem foldl_processRun_snd (text : List Char) (off : Int) (render : AttachmentInfo → List Char) :
    ∀ (runs : List AttributeRun) (st : List Char × Int),
      (runs.foldl (processRun text off render) st).2 = st.2 + sumLengths runs := by
  intro runs
  induction runs with
  | nil => intro st; simp [sumLengths]
  | cons r rest ih =>
    intro st
    rw [List.foldl_cons, ih]
    have h : (processRun text off render st r).2 = st.2 + r.length := by
      cases hr : r.attachmentInfo <;> by_cases hlt : st.2 < off <;>
        simp [processRun, hr, hlt]
    rw [h]
    simp only [sumLengths, List.map_cons, List.sum_cons]
    omega

theorem foldl_indicesStepP_notmem (objects : List MergeableDataObjectEntry)
    (uuids : List String) (ordering : List String) :
    ∀ (elems : List DictionaryElement) (m : Option String → Option Int) (q : Option String),
      q ∉ elems.map (fun e => getTargetUuid (e.value.getD ⟨0, 0⟩) objects uuids) →
      (elems.foldl (indicesStepP objects uuids ordering) m) q = m q := by
  intro elems
  induction elems with
  | nil => intro m q _; rfl
  | cons x rest ih =>
    intro m q hq
    rw [List.map_cons, List.mem_cons] at hq
    push_neg at hq
    rw [List.foldl_cons, ih _ q hq.2]
    simp only [indicesStepP]
    rw [if_neg hq.1]

theorem foldlM_indicesStepM_ok (objects : List MergeableDataObjectEntry)
    (uuids : List String) (ordering : List String) :
    ∀ (elems : List DictionaryElement) (m : Option String → Option Int),
      (∀ e ∈ elems, e.key.isSome ∧ e.value.isSome) →
      elems.foldlM (indicesStepM objects uuids ordering) m
        = Except.ok (elems.foldl (indicesStepP objects uuids ordering) m) := by
  intro elems
  induction elems with
  | nil => intro m _; rfl
  | cons x rest ih =>
    intro m hp
    obtain ⟨hk, hv⟩ := hp x (List.mem_cons_self x rest)
    obtain ⟨ek, hek⟩ := Option.isSome_iff_exists.mp hk
    obtain ⟨ev, hev⟩ := Option.isSome_iff_exists.mp hv
    have hstep : indicesStepM objects uuids ordering m x
        = Except.ok (indicesStepP objects uuids ordering m x) := by
      simp only [indicesStepM, indicesStepP, getTargetUuidJS, jsAccess, hek, hev]
      rfl
    show (indicesStepM objects uuids ordering m x
        >>= fun m2 => rest.foldlM (indicesStepM objects uuids ordering) m2) = _
    rw [hstep]
    show rest.foldlM (indicesStepM objects uuids ordering)
        (indicesStepP objects uuids ordering m x) = _
    rw [ih _ (fun e he => hp e (List.mem_cons_of_mem x he))]
    rfl

theorem foldlM_indicesStepM_error (objects : List MergeableDataObjectEntry)
    (uuids : List String) (ordering : List String) :
    ∀ (l1 : List DictionaryElement) (e : DictionaryElement)
      (l2 : List DictionaryElement) (m : Option String → Option Int),
      (∀ e' ∈ l1, e'.key.isSome ∧ e'.value.isSome) → e.key = none →
      (l1 ++ e :: l2).foldlM (indicesStepM objects uuids ordering) m
        = Except.error () := by
  intro l1
  induction l1 with
  | nil =>
    intro e l2 m _ hk
    have hstep : indicesStepM objects uuids ordering m e = Except.error () := by
      simp only [indicesStepM, getTargetUuidJS, jsAccess, hk]
      rfl
    show (indicesStepM objects uuids ordering m e
        >>= fun m2 => l2.foldlM (indicesStepM objects uuids ordering) m2) = _
    rw [hstep]
    rfl
  | cons x xs ih =>
    intro e l2 m hp hk
    obtain ⟨hxk, hxv⟩ := hp x (List.mem_cons_self x xs)
    obtain ⟨ek, hek⟩ := Option.isSome_iff_exists.mp hxk
    obtain ⟨ev, hev⟩ := Option.isSome_iff_exists.mp hxv
    have hstep : indicesStepM objects uuids ordering m x
        = Except.ok (indicesStepP objects uuids ordering m x) := by
      simp only [indicesStepM, indicesStepP, getTargetUuidJS, jsAccess, hek, hev]
      rfl
    show (indicesStepM objects uuids ordering m x
        >>= fun m2 => (xs ++ e :: l2).foldlM (indicesStepM objects uuids ordering) m2) = _
    rw [hstep]
    show (xs ++ e :: l2).foldlM (indicesStepM objects uuids ordering)
        (indicesStepP objects uuids ordering m x) = _
    exact ih e l2 _ (fun e' he' => hp e' (List.mem_cons_of_mem x he')) hk

theorem jsTrim_normalize_facts (l : List Char) :
    '\r' ∉ jsTrim (normalizeNewlines l)
    ∧ (∀ c, (jsTrim (normalizeNewlines l)).head? = some c → jsWS c = false)
    ∧ (∀ c, (jsTrim (normalizeNewlines l)).getLast? = some c → jsWS c = false) := by
  refine ⟨?_, ?_, ?_⟩
  · intro h
    exact noCR_normalizeNewlines l (mem_jsTrim _ _ h)
  · exact jsTrim_head_not_ws _
  · exact jsTrim_getLast_not_ws _

/-! ## Claims -/

/-- C6: in the Text/Attachment Interleaver, the running cursor is
initialized to `textOffset` (the post-suppression offset, not zero); a
run is skipped entirely — its covered text dropped — exactly when its
computed start (the cursor value before the run) is below `textOffset`;
and in every case the cursor then advances by the run's raw length (so
after the whole walk the cursor sits at `textOffset` plus the sum of the
raw lengths). -/
theorem c6_interleaver_cursor (text : List Char) (textOffset : Int)
    (render : AttachmentInfo → List Char) (st : List Char × Int) (attr : AttributeRun)
    (runs : List AttributeRun) :
    processRun text textOffset render st attr
      = (st.1 ++ (if st.2 < textOffset then [] else runContribution text render st.2 attr),
         st.2 + attr.length)
    ∧ interleaveRuns text textOffset render runs
        = runs.foldl (processRun text textOffset render) ([], textOffset)
    ∧ (interleaveRuns text textOffset render runs).2 = textOffset + sumLengths runs := by
  refine ⟨?_, rfl, ?_⟩
  · by_cases hlt : st.2 < textOffset
    · cases hr : attr.attachmentInfo <;> simp [processRun, runContribution, hlt, hr]
    · cases hr : attr.attachmentInfo <;> simp [processRun, runContribution, hlt, hr]
  · exact foldl_processRun_snd text textOffset render runs ([], textOffset)

/-- C7: if the run list is empty or the interleaved result contains only
whitespace, the emitted body is the raw suffix of `text` from
`textOffset` (after cleanup); and in all cases the final body has CR and
CRLF line endings normalized to LF (no carriage return survives) and is
trimmed of leading and trailing whitespace. -/
theorem c7_fallback_and_cleanup (note : Note) (title : String)
    (omitFirst : Bool) (render : AttachmentInfo → List Char) :
    ((note.attributeRun = [] ∨ jsTrim (interleavedWithTail note omitFirst render) = []) →
      formatNoteTextWithAttachments note title omitFirst render
        = headerOf title
          ++ jsTrim (normalizeNewlines
              (jsSubstringFrom note.noteText.data (noteTextOffset note.noteText.data omitFirst))))
    ∧ '\r' ∉ noteBody note omitFirst render
    ∧ (∀ c, (noteBody note omitFirst render).head? = some c → jsWS c = false)
    ∧ (∀ c, (noteBody note omitFirst render).getLast? = some c → jsWS c = false) := by
  refine ⟨?_, ?_, ?_, ?_⟩
  · intro h
    have hcond : (note.attributeRun.length = 0
        || (jsTrim (interleavedWithTail note omitFirst render)).isEmpty) = true := by
      rcases h with h | h
      · simp [h]
      · simp [h]
    unfold formatNoteTextWithAttachments noteBody preBody
    simp only [hcond, if_pos]
  · exact (jsTrim_normalize_facts (preBody note omitFirst render)).1
  · exact (jsTrim_normalize_facts (preBody note omitFirst render)).2.1
  · exact (jsTrim_normalize_facts (preBody note omitFirst render)).2.2

/-- C7 witness: a note with an empty run list and a suppressed first line
emits exactly the cleaned-up raw suffix after the header. -/
theorem c7_witness :
    formatNoteTextWithAttachments ⟨"Title\r\nBody ", []⟩ ("T") true (fun _ => [])
      = headerOf ("T")
        ++ jsTrim (normalizeNewlines
            (jsSubstringFrom (("Title\r\nBody ").data)
              (noteTextOffset (("Title\r\nBody ").data) true))) :=
  (c7_fallback_and_cleanup ⟨"Title\r\nBody ", []⟩ ("T") true (fun _ => [])).1 (Or.inl rfl)

/-- C10: `sanitizeFileName` output contains none of the characters
`< > : " / \ | ? *`, has no two consecutive whitespace characters (each
maximal whitespace run was replaced by one space), and carries no leading
or trailing whitespace. -/
theorem c10_sanitizeFileName_spec (name : String) :
    (∀ c ∈ (sanitizeFileName name).data, forbiddenChar c = false)
    ∧ List.Chain' (fun a b => jsWS a = false ∨ jsWS b = false) (sanitizeFileName name).data
    ∧ (∀ c, ((sanitizeFileName name).data).head? = some c → jsWS c = false)
    ∧ (∀ c, ((sanitizeFileName name).data).getLast? = some c → jsWS c = false) := by
  have hdata : (sanitizeFileName name).data
      = jsTrim (collapseWS (name.data.filter (fun c => !forbiddenChar c))) := rfl
  refine ⟨?_, ?_, ?_, ?_⟩
  · intro c hc
    rw [hdata] at hc
    rcases mem_collapseWSAux _ false c (mem_jsTrim _ c hc) with h2 | h2
    · rw [h2]; decide
    · simpa using (List.mem_filter.mp h2).2
  · rw [hdata]
    unfold jsTrim
    rw [List.chain'_reverse]
    apply chain'_dropWhile
    rw [List.chain'_reverse]
    apply chain'_dropWhile
    exact (collapseWSAux_chain _).1 false
  · intro c h
    rw [hdata] at h
    exact jsTrim_head_not_ws _ c h
  · intro c h
    rw [hdata] at h
    exact jsTrim_getLast_not_ws _ c h

/-- C10 witness: on the concrete input `" a<b "` the sanitized name is
`"ab"`, whose first character is neither forbidden nor whitespace. -/
theorem c10_witness : forbiddenChar 'a' = false ∧ jsWS 'a' = false :=
  ⟨(c10_sanitizeFileName_spec (" a<b ")).1 'a' (by decide),
   (c10_sanitizeFileName_spec (" a<b ")).2.2.1 'a' (by decide)⟩

/-- C1 counterexample: a blob whose Schema A (`Document`) decode succeeds
but carries no note text while Schema B (`MergableDataProto`) would yield
the note `"Hello world"`.  The code returns the raw-text fallback without
ever consulting Schema B, contradicting the claim that the decoder falls
back to Schema B in this case. -/
theorem c1_counterexample :
    extractNoteContent (some ⟨1, none⟩) (some exMergProto) [] ("T") true (fun _ => [])
      = extractTextFallback [] ("T") true
    ∧ mergNoteFound (some exMergProto) = some ⟨"Hello world", []⟩
    ∧ extractNoteContent (some ⟨1, none⟩) (some exMergProto) [] ("T") true (fun _ => [])
        ≠ formatNoteTextWithAttachments ⟨"Hello world", []⟩ ("T") true (fun _ => []) :=
  ⟨rfl, rfl, by decide⟩

/-- C1 (amended): Schema A is attempted first; Schema B is consulted only
when the Schema A decode fails structurally (throws).  When Schema A
decodes but yields no note text, extraction goes directly to the raw-text
fallback; when Schema A throws, the Schema B scan result is used if it
yields a note, otherwise the raw-text fallback. -/
theorem c1_schema_fallback (docRes : Option Document) (mergRes : Option MergableDataProto)
    (buffer : List Char) (title : String) (omitFirst : Bool)
    (render : AttachmentInfo → List Char) :
    (∀ doc, docRes = some doc → docNoteFound doc = none →
      extractNoteContent docRes mergRes buffer title omitFirst render
        = extractTextFallback buffer title omitFirst)
    ∧ (∀ doc n, docRes = some doc → docNoteFound doc = some n →
      extractNoteContent docRes mergRes buffer title omitFirst render
        = formatNoteTextWithAttachments n title omitFirst render)
    ∧ (∀ n, docRes = none → mergNoteFound mergRes = some n →
      extractNoteContent docRes mergRes buffer title omitFirst render
        = formatNoteTextWithAttachments n title omitFirst render)
    ∧ (docRes = none → mergNoteFound mergRes = none →
      extractNoteContent docRes mergRes buffer title omitFirst render
        = extractTextFallback buffer title omitFirst) := by
  refine ⟨?_, ?_, ?_, ?_⟩
  · intro doc hd hn
    subst hd
    simp [extractNoteContent, hn]
  · intro doc n hd hn
    subst hd
    simp [extractNoteContent, hn]
  · intro n hd hn
    subst hd
    simp [extractNoteContent, hn]
  · intro hd hn
    subst hd
    simp [extractNoteContent, hn]

/-- C1 witness: a concrete Schema-A success without note text goes to the
raw-text fallback. -/
theorem c1_witness :
    extractNoteContent (some ⟨1, none⟩) (some exMergProto) [] ("T") true (fun _ => [])
      = extractTextFallback [] ("T") true :=
  (c1_schema_fallback (some ⟨1, none⟩) (some exMergProto) [] ("T") true (fun _ => [])).1
    ⟨1, none⟩ rfl rfl

/-- C5 counterexample: in the entry list `[e0, e1]` where `e0` carries
note text only under `orderedSet.ordering.array.contents` (text `"X"`)
and `e1` carries a populated `note` field (text `"Y"`), the scan yields
`e0`'s ordered-set note `"X"` — not `e1`'s note as the claim (note
fields take priority over the entire list) requires. -/
theorem c5_counterexample :
    scanEntries exScanEntries = some ⟨"X", []⟩
    ∧ noteSel (noteEntry ("Y")) = some ⟨"Y", []⟩
    ∧ exScanEntries[1]? = some (noteEntry ("Y"))
    ∧ (⟨"X", []⟩ : Note) ≠ ⟨"Y", []⟩ :=
  ⟨rfl, rfl, rfl, by decide⟩

/-- C5 (amended): the scan is a single interleaved pass: entries that
match neither check are skipped; at the first entry matching either
check, the `note` field is preferred over the same entry's
`orderedSet.ordering.array.contents`, and the scan stops. -/
theorem c5_scan_first_match (l1 : List MergeableDataObjectEntry)
    (e : MergeableDataObjectEntry) (l2 : List MergeableDataObjectEntry)
    (h : ∀ e' ∈ l1, entrySelect e' = none) :
    scanEntries (l1 ++ e :: l2)
      = (match entrySelect e with
         | some n => some n
         | none => scanEntries l2)
    ∧ (∀ n, noteSel e = some n → entrySelect e = some n) := by
  constructor
  · induction l1 with
    | nil => rfl
    | cons x xs ih =>
      have hx : entrySelect x = none := h x (List.mem_cons_self x xs)
      have hrest : ∀ e' ∈ xs, entrySelect e' = none :=
        fun e' he' => h e' (List.mem_cons_of_mem x he')
      rw [List.cons_append]
      show (match entrySelect x with
            | some n => some n
            | none => scanEntries (xs ++ e :: l2))
          = _
      rw [hx]
      exact ih hrest
  · intro n hn
    simp [entrySelect, hn]

/-- C5 witness: the first matching entry after a non-matching prefix is
selected by its `note` field. -/
theorem c5_witness :
    scanEntries ([emptyEntry] ++ noteEntry ("Y") :: [])
      = (match entrySelect (noteEntry ("Y")) with
         | some n => some n
         | none => scanEntries []) :=
  (c5_scan_first_match [emptyEntry] (noteEntry ("Y")) [] (by decide)).1

theorem extractTextFallback_header (buffer : List Char) (title : String) (omitFirst : Bool) :
    ∃ rest, extractTextFallback buffer title omitFirst = headerOf title ++ rest := by
  unfold extractTextFallback
  dsimp only
  split
  · exact ⟨_, rfl⟩
  · exact ⟨_, rfl⟩

/-- C8: on every extraction path — Schema A success, Schema B success,
the raw-text-scrape fallback (both of its branches), and the
could-not-be-extracted placeholder — the produced document starts with
the H1 title line followed by a blank line (`# title\n\n`). -/
theorem c8_header_prefix (docRes : Option Document) (mergRes : Option MergableDataProto)
    (buffer : List Char) (title : String) (omitFirst : Bool)
    (render : AttachmentInfo → List Char) :
    List.IsPrefix (headerOf title)
      (extractNoteContent docRes mergRes buffer title omitFirst render)
    ∧ List.IsPrefix (headerOf title) (couldNotExtractContent title) := by
  constructor
  · have hfmt : ∀ n : Note, List.IsPrefix (headerOf title)
        (formatNoteTextWithAttachments n title omitFirst render) :=
      fun n => List.prefix_append _ _
    have hfb : List.IsPrefix (headerOf title) (extractTextFallback buffer title omitFirst) := by
      obtain ⟨r, hr⟩ := extractTextFallback_header buffer title omitFirst
      rw [hr]
      exact List.prefix_append _ _
    cases docRes with
    | some doc =>
      cases hd : docNoteFound doc with
      | some n => simpa [extractNoteContent, hd] using hfmt n
      | none => simpa [extractNoteContent, hd] using hfb
    | none =>
      cases hm : mergNoteFound mergRes with
      | some n => simpa [extractNoteContent, hm] using hfmt n
      | none => simpa [extractNoteContent, hm] using hfb
  · refine ⟨("*Content could not be extracted*").data, ?_⟩
    unfold headerOf couldNotExtractContent
    simp only [String.data_append, List.append_assoc]
    rw [show ("\n\n").data ++ ("*Content could not be extracted*").data
        = ("\n\n*Content could not be extracted*").data from by decide]

/-- C2 counterexample: a graph in which the referenced entry is a
`customMap` whose first map-entry boxes the integer `5`, while the uuid
table has only four entries: `getTargetUuid` returns JS `undefined`
(modelled as `none`) — neither a 32-character hex string nor the empty
string, contradicting the claim's total-string contract. -/
theorem c2_counterexample :
    getTargetUuid ⟨0, 0⟩ [boxEntry 5] exUuidsHex = none
    ∧ (∀ s : String, getTargetUuid ⟨0, 0⟩ [boxEntry 5] exUuidsHex ≠ some s) := by
  refine ⟨rfl, fun s hs => ?_⟩
  rw [show getTargetUuid ⟨0, 0⟩ [boxEntry 5] exUuidsHex = none from rfl] at hs
  exact Option.noConfusion hs

/-- C2 (amended): `getTargetUuid` never throws, and — when every uuid
table entry is a 32-character lowercase hex string — returns a
32-character lowercase hex string, the empty string, or JS `undefined`;
`undefined` occurs exactly when the full reference chain resolves but the
boxed unsigned integer is not a valid index into `uuids`. -/
theorem c2_getTargetUuid_total (entry : ObjectID) (objects : List MergeableDataObjectEntry)
    (uuids : List String) (h : ∀ u ∈ uuids, isHex32 u = true) :
    (getTargetUuid entry objects uuids = none
     ∨ getTargetUuid entry objects uuids = some ("")
     ∨ ∃ s, getTargetUuid entry objects uuids = some s ∧ isHex32 s = true)
    ∧ (getTargetUuid entry objects uuids = none ↔
       ∃ reference cm me v,
         jsIndex objects entry.objectIndex = some reference
         ∧ reference.customMap = some cm
         ∧ cm.mapEntry.head? = some me
         ∧ me.value = some v
         ∧ uuids.length ≤ v.unsignedIntegerValue) := by
  cases h1 : jsIndex objects entry.objectIndex with
  | none =>
    have hG : getTargetUuid entry objects uuids = some ("") := by
      unfold getTargetUuid; rw [h1]
    refine ⟨Or.inr (Or.inl hG), ?_, ?_⟩
    · intro hn; rw [hG] at hn; exact Option.noConfusion hn
    · rintro ⟨r, c, m, v, hr, -⟩
      exact Option.noConfusion hr
  | some reference =>
    cases h2 : reference.customMap with
    | none =>
      have hG : getTargetUuid entry objects uuids = some ("") := by
        unfold getTargetUuid; rw [h1]; dsimp only; rw [h2]
      refine ⟨Or.inr (Or.inl hG), ?_, ?_⟩
      · intro hn; rw [hG] at hn; exact Option.noConfusion hn
      · rintro ⟨r, c, m, v, hr, hc, -⟩
        injection hr with hr
        rw [← hr, h2] at hc
        exact Option.noConfusion hc
    | some cm =>
      cases h3 : cm.mapEntry.head? with
      | none =>
        have hG : getTargetUuid entry objects uuids = some ("") := by
          unfold getTargetUuid; rw [h1]; dsimp only; rw [h2]; dsimp only; rw [h3]
        refine ⟨Or.inr (Or.inl hG), ?_, ?_⟩
        · intro hn; rw [hG] at hn; exact Option.noConfusion hn
        · rintro ⟨r, c, m, v, hr, hc, hm, -⟩
          injection hr with hr
          rw [← hr, h2] at hc
          injection hc with hc
          rw [← hc, h3] at hm
          exact Option.noConfusion hm
      | some me =>
        cases h4 : me.value with
        | none =>
          have hG : getTargetUuid entry objects uuids = some ("") := by
            unfold getTargetUuid
            rw [h1]; dsimp only; rw [h2]; dsimp only; rw [h3]; dsimp only; rw [h4]
          refine ⟨Or.inr (Or.inl hG), ?_, ?_⟩
          · intro hn; rw [hG] at hn; exact Option.noConfusion hn
          · rintro ⟨r, c, m, v, hr, hc, hm, hv, -⟩
            injection hr with hr
            rw [← hr, h2] at hc
            injection hc with hc
            rw [← hc, h3] at hm
            injection hm with hm
            rw [← hm, h4] at hv
            exact Option.noConfusion hv
        | some v =>
          have hG : getTargetUuid entry objects uuids = uuids[v.unsignedIntegerValue]? := by
            unfold getTargetUuid
            rw [h1]; dsimp only; rw [h2]; dsimp only; rw [h3]; dsimp only; rw [h4]
            rfl
          cases h5 : uuids[v.unsignedIntegerValue]? with
          | none =>
            rw [h5] at hG
            refine ⟨Or.inl hG, ?_, ?_⟩
            · intro _
              exact ⟨reference, cm, me, v, rfl, h2, h3, h4,
                List.getElem?_eq_none_iff.mp h5⟩
            · intro _; exact hG
          | some s =>
            rw [h5] at hG
            refine ⟨Or.inr (Or.inr ⟨s, hG, h s (List.getElem?_mem h5)⟩), ?_, ?_⟩
            · intro hn; rw [hG] at hn; exact Option.noConfusion hn
            · rintro ⟨r, c, m, v', hr, hc, hm, hv, hle⟩
              injection hr with hr
              rw [← hr, h2] at hc
              injection hc with hc
              rw [← hc, h3] at hm
              injection hm with hm
              rw [← hm, h4] at hv
              injection hv with hv
              rw [← hv] at hle
              rw [List.getElem?_eq_none_iff.mpr hle] at h5
              exact Option.noConfusion h5

/-- C2 witness: on a one-box graph with a valid 16-byte hex uuid table
the resolution lands in one of the three allowed outcomes. -/
theorem c2_witness :
    getTargetUuid ⟨0, 0⟩ [boxEntry 0] [("00112233445566778899aabbccddeeff")] = none
    ∨ getTargetUuid ⟨0, 0⟩ [boxEntry 0] [("00112233445566778899aabbccddeeff")] = some ("")
    ∨ ∃ s, getTargetUuid ⟨0, 0⟩ [boxEntry 0] [("00112233445566778899aabbccddeeff")] = some s
        ∧ isHex32 s = true :=
  (c2_getTargetUuid_total ⟨0, 0⟩ [boxEntry 0] [("00112233445566778899aabbccddeeff")]
    (by decide)).1

/-- C9 counterexample: an ordered set with one attachment element (so
the claim demands the count `1` regardless of the contents dictionary)
and one contents element whose `key` message field is absent: the real
`findLocations` throws a `TypeError` at `null.objectIndex` inside
`getTargetUuid` instead of returning any count or recording `-1`. -/
theorem c9_counterexample :
    attachmentsOf exNullKeyOS = [⟨0, [0xaa]⟩]
    ∧ contentsElemsOf exNullKeyOS = [⟨none, some ⟨0, 4⟩⟩]
    ∧ findLocations exNullKeyOS exTableObjects exUuidsHex = Except.error () :=
  ⟨rfl, rfl, rfl⟩

/-- C9 (amended): when every contents element carries present key and
value references, `findLocations` returns successfully with a count
equal to the number of elements of `ordering.array.attachment`
regardless of the contents dictionary, and for each contents element
(each element not overwritten by a later one carrying the same resolved
value uuid — JS object assignment keeps the last) it records, under the
value's resolved uuid, the `indexOf` position of the key's resolved uuid
within the ordering array — `indexOf` being `-1` whenever the key's uuid
does not occur there.  When instead a contents element's key reference
is absent (all earlier elements being well-formed), `findLocations`
propagates a `TypeError`. -/
theorem c9_findLocations_spec (object : MergeableDataObjectEntry)
    (objects : List MergeableDataObjectEntry) (uuids : List String) :
    ((∀ e ∈ contentsElemsOf object, e.key.isSome ∧ e.value.isSome) →
      findLocations object objects uuids
        = Except.ok
            ((contentsElemsOf object).foldl
              (indicesStepP objects uuids (orderingOf object)) (fun _ => none),
             (attachmentsOf object).length))
    ∧ ((∀ e ∈ contentsElemsOf object, e.key.isSome ∧ e.value.isSome) →
       ∀ l1 e l2 ek ev, contentsElemsOf object = l1 ++ e :: l2 →
         e.key = some ek → e.value = some ev →
         (∀ e' ∈ l2, getTargetUuid (e'.value.getD ⟨0, 0⟩) objects uuids
            ≠ getTargetUuid ev objects uuids) →
         findLocationsLookup (findLocations object objects uuids)
             (getTargetUuid ev objects uuids)
           = some (jsIndexOfOpt (orderingOf object) (getTargetUuid ek objects uuids)))
    ∧ (∀ l1 e l2, contentsElemsOf object = l1 ++ e :: l2 →
        (∀ e' ∈ l1, e'.key.isSome ∧ e'.value.isSome) → e.key = none →
        findLocations object objects uuids = Except.error ())
    ∧ (∀ k : Option String, (∀ s, k = some s → s ∉ orderingOf object) →
       jsIndexOfOpt (orderingOf object) k = -1) := by
  have hok : (∀ e ∈ contentsElemsOf object, e.key.isSome ∧ e.value.isSome) →
      findLocations object objects uuids
        = Except.ok
            ((contentsElemsOf object).foldl
              (indicesStepP objects uuids (orderingOf object)) (fun _ => none),
             (attachmentsOf object).length) := by
    intro hp
    show ((contentsElemsOf object).foldlM
        (indicesStepM objects uuids (orderingOf object)) (fun _ => none)
      >>= fun indices => pure (indices, (orderingOf object).length)) = _
    rw [foldlM_indicesStepM_ok objects uuids (orderingOf object) _ _ hp]
    show Except.ok (_, (orderingOf object).length) = _
    rw [show (orderingOf object).length = (attachmentsOf object).length by
      simp [orderingOf]]
  refine ⟨hok, ?_, ?_, ?_⟩
  · intro hp l1 e l2 ek ev hsplit hek hev hlast
    rw [show findLocationsLookup (findLocations object objects uuids)
          (getTargetUuid ev objects uuids)
        = ((contentsElemsOf object).foldl
            (indicesStepP objects uuids (orderingOf object)) (fun _ => none))
            (getTargetUuid ev objects uuids) by
      rw [hok hp]
      rfl]
    have hnot : getTargetUuid ev objects uuids
        ∉ l2.map (fun x => getTargetUuid (x.value.getD ⟨0, 0⟩) objects uuids) := by
      intro hmem
      rw [List.mem_map] at hmem
      obtain ⟨e', he', heq⟩ := hmem
      exact hlast e' he' heq
    rw [hsplit, List.foldl_append, List.foldl_cons,
      foldl_indicesStepP_notmem objects uuids (orderingOf object) l2 _ _ hnot]
    simp [indicesStepP, hek, hev]
  · intro l1 e l2 hsplit hp1 hk
    show ((contentsElemsOf object).foldlM
        (indicesStepM objects uuids (orderingOf object)) (fun _ => none)
      >>= fun indices => pure (indices, (orderingOf object).length)) = _
    rw [hsplit, foldlM_indicesStepM_error objects uuids (orderingOf object) l1 e l2 _ hp1 hk]
    rfl
  · intro k hk
    cases k with
    | none => rfl
    | some s =>
      have hs := hk s rfl
      show jsIndexOfD (orderingOf object) s = -1
      unfold jsIndexOfD
      have hnone : (orderingOf object).findIdx? (fun x => x = s) = none := by
        rw [List.findIdx?_eq_none_iff]
        intro x hx
        simp only [decide_eq_false_iff_not]
        exact fun he => hs (he ▸ hx)
      rw [hnone]

/-- C9 witness: in the 2x2 table graph (all references present), the
first row contents element records uuid `aa` at its ordering
position. -/
theorem c9_witness :
    findLocationsLookup (findLocations exRowsOS exTableObjects exUuidsHex)
        (getTargetUuid ⟨0, 4⟩ exTableObjects exUuidsHex)
      = some (jsIndexOfOpt (orderingOf exRowsOS)
          (getTargetUuid ⟨0, 4⟩ exTableObjects exUuidsHex)) :=
  (c9_findLocations_spec exRowsOS exTableObjects exUuidsHex).2.1 (by decide)
    [] (refEl 4 4) [refEl 5 5] ⟨0, 4⟩ ⟨0, 4⟩ rfl rfl rfl (by decide)

/-- C3 counterexample: on the 2x2 example graph the rendered Markdown is
not the bare 3-line string `| A |  |\n| -- | -- |\n|  | B |\n` claimed:
the rendering starts from a bare newline and appends a final one, so the
three table lines are surrounded by a leading empty line and a trailing
blank line. -/
theorem c3_counterexample :
    convertTableData (some exTableProto)
      = some (("\n| A |  |\n| -- | -- |\n|  | B |\n\n").data)
    ∧ convertTableData (some exTableProto)
        ≠ some (("| A |  |\n| -- | -- |\n|  | B |\n").data) :=
  ⟨rfl, by decide⟩

/-- C3 (amended): reconstruction of the example graph builds the 2x2 grid
with `(0,0) = "A"` and `(1,1) = "B"` assigned (unassigned cells are holes
rendered as `""`), and the rendered Markdown is exactly
`"\n| A |  |\n| -- | -- |\n|  | B |\n\n"` — the 3 claimed lines preceded
by one newline and followed by one extra newline, the separator row
appearing unconditionally right after the first row with one ` -- |`
segment per column. -/
theorem c3_table_roundtrip :
    gridOf exTableProto = some [[some (("A").data), none], [none, some (("B").data)]]
    ∧ (gridOf exTableProto).map (fun g => g.map (fun r => r.map (fun c => String.mk (c.getD []))))
        = some [["A", ""], ["", "B"]]
    ∧ convertTableData (some exTableProto)
        = some (("\n| A |  |\n| -- | -- |\n|  | B |\n\n").data)
    ∧ sepRow 2 = ("| -- | -- |\n").data :=
  ⟨rfl, rfl, rfl, rfl⟩

/-- C4 counterexample: in the malformed table graph the single cell's
row uuid `ab` is recorded at index `-1` (absent from the ordering array);
its placement passes the `rowLocation < rowCount` guard, `table[-1]` is
`undefined`, and the assignment throws a `TypeError` — the whole table
decode aborts to `null` instead of leaving the cell empty. -/
theorem c4_counterexample :
    findLocationsLookup (findLocations exBadRowsOS exBadTableObjects exBadUuidsHex)
        (some ("ab")) = some (-1)
    ∧ convertTableDataCore exBadTableProto = Except.error ()
    ∧ convertTableData (some exBadTableProto) = none :=
  ⟨rfl, rfl, rfl⟩

/-- C4 (amended): during cell placement, a row or column index that is
`undefined` or at least the respective count, or a missing target entry,
leaves the grid untouched without error; a negative column index also
leaves the grid untouched (the stored property is invisible); but a
negative row index (the `-1` of a uuid absent from the ordering array)
raises a `TypeError`, aborting the placement loop. -/
theorem c4_placement_bounds (rowCount columnCount : Nat) (grid : Grid)
    (rowLocation columnLocation : Option Int)
    (rowContent : Option MergeableDataObjectEntry) :
    ((optLtNat rowLocation rowCount = false ∨ optLtNat columnLocation columnCount = false
        ∨ rowContent = none) →
      placeCell rowCount columnCount grid rowLocation columnLocation rowContent
        = Except.ok grid)
    ∧ (∀ i j rc, rowLocation = some i → columnLocation = some j → rowContent = some rc →
        0 ≤ i → i < (grid.length : Int) → j < 0 →
        optLtNat rowLocation rowCount = true → optLtNat columnLocation columnCount = true →
        placeCell rowCount columnCount grid rowLocation columnLocation rowContent
          = Except.ok grid)
    ∧ (∀ i j rc, rowLocation = some i → columnLocation = some j → rowContent = some rc →
        i < 0 → optLtNat columnLocation columnCount = true →
        placeCell rowCount columnCount grid rowLocation columnLocation rowContent
          = Except.error ()) := by
  refine ⟨?_, ?_, ?_⟩
  · intro h
    unfold placeCell
    rcases h with h | h | h
    · rw [h]; simp
    · rw [h]; simp
    · rw [h]; simp
  · intro i j rc hi hj hrc h0 hlen hjneg hrow hcol
    subst hi; subst hj; subst hrc
    unfold placeCell
    rw [hrow, hcol]
    simp only [Bool.true_and, Option.isSome_some, Bool.and_true, if_true]
    unfold setCell
    rw [if_neg (by omega), if_pos hjneg]
  · intro i j rc hi hj hrc hineg hcol
    subst hi; subst hj; subst hrc
    have hrow : optLtNat (some i) rowCount = true := by
      unfold optLtNat
      simp only [decide_eq_true_eq]
      omega
    unfold placeCell
    rw [hrow, hcol]
    simp only [Bool.true_and, Option.isSome_some, Bool.and_true, if_true]
    unfold setCell
    rw [if_pos (Or.inl hineg)]

/-- C4 witness: an out-of-range (too large) row index leaves a concrete
one-cell grid untouched without error. -/
theorem c4_witness :
    placeCell 1 1 [[none]] (some 5) (some 0) (some (noteEntry ("Z")))
      = Except.ok [[none]] :=
  (c4_placement_bounds 1 1 [[none]] (some 5) (some 0) (some (noteEntry ("Z")))).1
    (Or.inl (by decide))

end AppleNotes
